import Mathlib

set_option maxRecDepth 2000

/-!
Verification of the hybrid drug-food interaction retrieval engine
(`app/rag/vector_store.py` and the risk-level table of `app/config.py`).

The Python code is shallowly embedded as executable Lean definitions:

* rows of the interaction CSV become the structure `Row`;
* Python dicts used as document metadata become association lists
  `List (String × MetaValue)` (Python's `dict.get` becomes `List.lookup`);
* floating-point scores and distances become rationals (the code only
  compares them and performs exact arithmetic such as `1 - score/20`,
  so `ℚ` preserves all orderings);
* the ChromaDB collection is an external collaborator: vector queries are
  an oracle `VQ` that may fail (`Except Unit`), and index mutation is
  tracked as an explicit operation log of type `List IndexOp`;
* Python's stable `list.sort(key=...)` becomes the stable insertion sort
  `sortLe` below (for a total preorder, stable sorts are unique, so this
  coincides with CPython's Timsort result);
* `str.lower()` becomes a character-wise `Char.toLower` map (ASCII; the
  strings of interest are Korean or ASCII, on which both agree), and
  Python's substring test `a in b` becomes `isSubstr` on character lists.
-/

/-- Python `needle in hay` on strings: contiguous-substring test on
character lists.  The empty needle is a substring of everything. -/
def isSubstr (needle : List Char) : List Char → Bool
  | [] => needle.isEmpty
  | c :: t => needle.isPrefixOf (c :: t) || isSubstr needle t

/-- Character list of a string after Python-style `str.lower()`. -/
def lowerL (s : String) : List Char := s.toList.map Char.toLower

/-- Accumulator pass for Python `str.split()` (split on whitespace runs,
never yielding empty tokens).  `cur` is the current token, reversed. -/
def wsTokensAux (cur : List Char) : List Char → List (List Char)
  | [] => if cur.isEmpty then [] else [cur.reverse]
  | c :: t =>
    if c.isWhitespace then
      if cur.isEmpty then wsTokensAux [] t else cur.reverse :: wsTokensAux [] t
    else wsTokensAux (c :: cur) t

/-- Python `str.split()` with no separator argument. -/
def wsTokens (l : List Char) : List (List Char) := wsTokensAux [] l

/-- Stable insertion of `a` into `l`: `a` goes in front of the first
element `b` with `le a b`.  For a total preorder `le` this realizes the
placement Python's stable sort gives an element relative to a sorted
remainder. -/
def insertLe (le : α → α → Bool) (a : α) : List α → List α
  | [] => [a]
  | b :: t => if le a b then a :: b :: t else b :: insertLe le a t

/-- Stable sort by the boolean comparison `le`; models Python's
`list.sort(key=...)` (stable, ascending). -/
def sortLe (le : α → α → Bool) : List α → List α
  | [] => []
  | x :: xs => insertLe le x (sortLe le xs)

/-- Lexicographic comparison on (primary : ℤ, secondary : ℚ) sort keys,
as produced by the Python `key=lambda x: (a, b)` tuples. -/
def keyLe (p q : Int × ℚ) : Bool :=
  decide (p.1 < q.1) || (decide (p.1 = q.1) && decide (p.2 ≤ q.2))

/-- One row of the interaction CSV (`InteractionRecord` of the spec). -/
structure Row where
  drug_name : String
  drug_ingredient : String
  drug_category : String
  food_name : String
  food_category : String
  risk_level : String
  interaction_mechanism : String
  clinical_effect : String
  recommendation : String
  alternative_food : String
  source : String
deriving DecidableEq, Repr

/-- One entry of the `RISK_LEVELS` table in `app/config.py`. -/
structure RiskInfo where
  emoji : String
  label : String
  color : String
  priority : Int
deriving DecidableEq, Repr

/-- `RISK_LEVELS[lvl]` as a partial lookup (`dict.get` without default). -/
def riskLevelsGet (lvl : String) : Option RiskInfo :=
  if lvl = "danger" then some { emoji := "🔴", label := "위험", color := "#dc3545", priority := 1 }
  else if lvl = "warning" then some { emoji := "🟠", label := "경고", color := "#fd7e14", priority := 2 }
  else if lvl = "caution" then some { emoji := "🟡", label := "주의", color := "#ffc107", priority := 3 }
  else if lvl = "safe" then some { emoji := "🟢", label := "안전", color := "#28a745", priority := 4 }
  else none

/-- `RISK_LEVELS.get(lvl, RISK_LEVELS['caution'])`. -/
def riskGet (lvl : String) : RiskInfo :=
  (riskLevelsGet lvl).getD { emoji := "🟡", label := "주의", color := "#ffc107", priority := 3 }

/-- A value stored in a metadata dict: the code stores strings and the
integer `risk_priority`. -/
inductive MetaValue where
  | str (s : String)
  | int (n : Int)
deriving DecidableEq, Repr

/-- `DrugFoodRAG._create_document`: the Korean-labelled text blob. -/
def createDocument (row : Row) : String :=
  "약물명: " ++ row.drug_name ++
  "\n성분명: " ++ row.drug_ingredient ++
  "\n약물분류: " ++ row.drug_category ++
  "\n음식명: " ++ row.food_name ++
  "\n음식분류: " ++ row.food_category ++
  "\n위험도: " ++ row.risk_level ++
  "\n상호작용 메커니즘: " ++ row.interaction_mechanism ++
  "\n임상적 영향: " ++ row.clinical_effect ++
  "\n권고사항: " ++ row.recommendation ++
  "\n대안 음식: " ++ row.alternative_food ++
  "\n출처: " ++ row.source

/-- `DrugFoodRAG._create_metadata`: the metadata dict, in the literal key
order of the Python source.  Note it carries nine of the record fields
(`interaction_mechanism` and `clinical_effect` are absent) plus
`risk_priority`. -/
def createMetadata (row : Row) : List (String × MetaValue) :=
  [("drug_name", .str row.drug_name),
   ("drug_ingredient", .str row.drug_ingredient),
   ("drug_category", .str row.drug_category),
   ("food_name", .str row.food_name),
   ("food_category", .str row.food_category),
   ("risk_level", .str row.risk_level),
   ("risk_priority", .int (riskGet row.risk_level).priority),
   ("recommendation", .str row.recommendation),
   ("alternative_food", .str row.alternative_food),
   ("source", .str row.source)]

/-- A mutation issued to the vector index by the index builder. -/
inductive IndexOp where
  | del
  | create
  | add (n : Nat)
deriving DecidableEq, Repr

/-- The dict returned by `DrugFoodRAG.build_index` (`count` is absent from
the failure dict, hence `Option`). -/
structure BuildResult where
  success : Bool
  message : String
  count : Option Nat
deriving DecidableEq, Repr

/-- Message for the no-data failure branch of `build_index`. -/
def noDataMsg : String := "상호작용 데이터가 없습니다."

/-- Message for the reuse branch of `build_index`. -/
def reuseMsg (c : Nat) : String := "기존 인덱스 사용 (" ++ toString c ++ "개 문서)"

/-- Message for the build-completed branch of `build_index`. -/
def builtMsg (c : Nat) : String := "인덱스 구축 완료 (" ++ toString c ++ "개 문서)"

/-- `DrugFoodRAG.build_index`.  State passed explicitly: `dfOpt` is
`self.interactions_df` (`none` = the CSV failed to load), `existingCount`
is `self.collection.count()`.  Returns the result dict, the new index
document count, and the list of mutations issued to the collection. -/
def buildIndex (dfOpt : Option (List Row)) (existingCount : Nat) (force : Bool) :
    BuildResult × Nat × List IndexOp :=
  match dfOpt with
  | none => ({ success := false, message := noDataMsg, count := none }, existingCount, [])
  | some rows =>
    if 0 < existingCount ∧ ¬force then
      ({ success := true, message := reuseMsg existingCount, count := some existingCount },
       existingCount, [])
    else
      ({ success := true, message := builtMsg rows.length, count := some rows.length },
       rows.length,
       (if force ∧ 0 < existingCount then [IndexOp.del, IndexOp.create] else []) ++
         [IndexOp.add rows.length])

/-- The dict returned by `DrugFoodRAG.get_stats`. -/
structure Stats where
  total_interactions : Nat
  drugs : Nat
  foods : Nat
  by_risk_level : List (String × Nat)
deriving DecidableEq, Repr

/-- `DrugFoodRAG.get_stats`.  `indexCount` is `self.collection.count()`.
The histogram is keyed by first occurrence rather than pandas
`value_counts` frequency order; no property below depends on the order. -/
def getStats (dfOpt : Option (List Row)) (indexCount : Nat) : Stats :=
  match dfOpt with
  | none => { total_interactions := indexCount, drugs := 0, foods := 0, by_risk_level := [] }
  | some rows =>
    { total_interactions := indexCount,
      drugs := ((rows.map (·.drug_name)).eraseDups).length,
      foods := ((rows.map (·.food_name)).eraseDups).length,
      by_risk_level :=
        ((rows.map (·.risk_level)).eraseDups).map
          (fun l => (l, (rows.map (·.risk_level)).count l)) }

/-- One search hit, as the dict built by `DrugFoodRAG.search`. -/
structure SearchResult where
  document : String
  metadata : List (String × MetaValue)
  distance : ℚ
  relevance_score : ℚ
  risk_emoji : String
  risk_label : String
  risk_color : String
deriving DecidableEq, Repr

/-- Tokenization of the query: `query.lower().split()`. -/
def tokensOf (q : String) : List (List Char) := wsTokens (lowerL q)

/-- The keyword score of one row: the loop adding 10 per query token that
is a substring of the lower-cased drug name, and 10 per token that is a
substring of the lower-cased food name. -/
def scoreRow (toks : List (List Char)) (row : Row) : Nat :=
  toks.foldl
    (fun acc t =>
      acc + (if isSubstr t (lowerL row.drug_name) then 10 else 0)
          + (if isSubstr t (lowerL row.food_name) then 10 else 0))
    0

/-- The drug filter `df[df['drug_name'].isin(drug_filter)]`, skipped for
`None` or an empty list (Python truthiness of `drug_filter and
len(drug_filter) > 0`). -/
def drugFilterStep (dF : Option (List String)) (rows : List Row) : List Row :=
  match dF with
  | some l => if l = [] then rows else rows.filter (fun row => l.contains row.drug_name)
  | none => rows

/-- The food filter `df['food_name'].str.contains(food_filter,
case=False, na=False)`, skipped for `None` or the empty string.  The
pandas pattern is a regex; it is modelled as a case-insensitive substring
test, which agrees for metacharacter-free patterns (no property below
exercises a metacharacter). -/
def foodFilterStep (fF : Option String) (rows : List Row) : List Row :=
  match fF with
  | some f => if f = "" then rows
              else rows.filter (fun row => isSubstr (lowerL f) (lowerL row.food_name))
  | none => rows

/-- The risk filter `df[df['risk_level'].isin(risk_filter)]`, skipped for
`None` or an empty list. -/
def riskFilterStep (rF : Option (List String)) (rows : List Row) : List Row :=
  match rF with
  | some l => if l = [] then rows else rows.filter (fun row => l.contains row.risk_level)
  | none => rows

/-- The three structural filters applied to the dataframe, in source
order. -/
def applyFilters (rows : List Row) (dF : Option (List String)) (fF : Option String)
    (rF : Option (List String)) : List Row :=
  riskFilterStep rF (foodFilterStep fF (drugFilterStep dF rows))

/-- The result dict appended for a keyword-matching row. -/
def mkKeywordResult (row : Row) (score : Nat) : SearchResult :=
  { document := createDocument row,
    metadata := createMetadata row,
    distance := 1 - (score : ℚ) / 20,
    relevance_score := (score : ℚ) / 20,
    risk_emoji := (riskGet row.risk_level).emoji,
    risk_label := (riskGet row.risk_level).label,
    risk_color := (riskGet row.risk_level).color }

/-- Stage 1 of `DrugFoodRAG.search`: the `keyword_results` list.  The
source loop appends `mkKeywordResult` for exactly the filter-surviving
rows with positive score, in row order, which is this filter-then-map. -/
def keywordResults (dfOpt : Option (List Row)) (q : String) (dF : Option (List String))
    (fF : Option String) (rF : Option (List String)) : List SearchResult :=
  match dfOpt with
  | none => []
  | some rows =>
    ((applyFilters rows dF fF rF).filter
        (fun row => 0 < scoreRow (tokensOf q) row)).map
      (fun row => mkKeywordResult row (scoreRow (tokensOf q) row))

/-- One conjunct of the ChromaDB `where` filter. -/
inductive WhereCond where
  | eq (field val : String)
  | mem (field : String) (vals : List String)
deriving DecidableEq, Repr

/-- The `where` argument handed to `collection.query`: a single condition
or an `$and` of several. -/
inductive WhereExpr where
  | single (c : WhereCond)
  | conj (cs : List WhereCond)
deriving DecidableEq, Repr

/-- The `where_conditions` list built by the vector stage. -/
def whereConds (dF : Option (List String)) (fF : Option String)
    (rF : Option (List String)) : List WhereCond :=
  (match dF with
   | some [x] => [WhereCond.eq "drug_name" x]
   | some l => if l = [] then [] else [WhereCond.mem "drug_name" l]
   | none => []) ++
  (match fF with
   | some f => if f = "" then [] else [WhereCond.eq "food_name" f]
   | none => []) ++
  (match rF with
   | some [x] => [WhereCond.eq "risk_level" x]
   | some l => if l = [] then [] else [WhereCond.mem "risk_level" l]
   | none => [])

/-- Combining `where_conditions` into the final `where` argument. -/
def buildWhere (dF : Option (List String)) (fF : Option String)
    (rF : Option (List String)) : Option WhereExpr :=
  match whereConds dF fF rF with
  | [] => none
  | [c] => some (WhereExpr.single c)
  | cs => some (WhereExpr.conj cs)

/-- One raw hit returned by `collection.query` (document, metadata dict,
reported distance). -/
structure VecHit where
  document : String
  metadata : List (String × MetaValue)
  distance : ℚ
deriving DecidableEq, Repr

/-- The vector-index query oracle: arguments are the query text,
`n_results`, and the optional `where` filter; a failure models the query
raising. -/
def VQ : Type := String → Nat → Option WhereExpr → Except Unit (List VecHit)

/-- `metadata.get('risk_level', 'caution')` followed by the
`RISK_LEVELS.get(_, caution)` lookup: any absent or non-string value ends
up at the caution entry either way. -/
def vecRiskLevelOf (m : List (String × MetaValue)) : String :=
  match m.lookup "risk_level" with
  | some (.str s) => s
  | _ => "caution"

/-- The result dict built for one vector hit. -/
def mkVecResult (h : VecHit) : SearchResult :=
  { document := h.document,
    metadata := h.metadata,
    distance := h.distance,
    relevance_score := if h.distance < 1 then 1 - h.distance else 0,
    risk_emoji := (riskGet (vecRiskLevelOf h.metadata)).emoji,
    risk_label := (riskGet (vecRiskLevelOf h.metadata)).label,
    risk_color := (riskGet (vecRiskLevelOf h.metadata)).color }

/-- The vector stage's try/except: the filtered query, then on failure
one unfiltered retry whose own failure propagates. -/
def vectorStage (vq : VQ) (q : String) (n2 : Nat) (w : Option WhereExpr) :
    Except Unit (List VecHit) :=
  match vq q n2 w with
  | .ok hits => .ok hits
  | .error _ => vq q n2 none

/-- How many queries the vector stage issues to the collection. -/
def vectorCalls (vq : VQ) (q : String) (n2 : Nat) (w : Option WhereExpr) : Nat :=
  match vq q n2 w with
  | .ok _ => 1
  | .error _ => 2

/-- `x['metadata'].get('risk_priority', 99)`, the primary sort key.  The
metadata the engine itself builds always stores an integer here; a
non-integer value (which would make the Python tuple comparison raise)
is mapped to the missing-key default. -/
def getRP (r : SearchResult) : Int :=
  match r.metadata.lookup "risk_priority" with
  | some (.int n) => n
  | _ => 99

/-- The de-duplication key `(metadata.get('drug_name'),
metadata.get('food_name'))`. -/
def pairKeyOf (r : SearchResult) : Option MetaValue × Option MetaValue :=
  (r.metadata.lookup "drug_name", r.metadata.lookup "food_name")

/-- The fusion loop over `keyword_results + vector_results`: keep the
first occurrence of each `(drug_name, food_name)` key. -/
def dedupeGo (seen : List (Option MetaValue × Option MetaValue)) :
    List SearchResult → List SearchResult
  | [] => []
  | r :: t =>
    if pairKeyOf r ∈ seen then dedupeGo seen t
    else r :: dedupeGo (pairKeyOf r :: seen) t

/-- The keyword-stage sort: `(risk_priority, -relevance_score)` ascending. -/
def kwSort (l : List SearchResult) : List SearchResult :=
  sortLe (fun a b => keyLe (getRP a, -a.relevance_score) (getRP b, -b.relevance_score)) l

/-- The fusion sort: `(risk_priority, distance)` ascending. -/
def fusSort (l : List SearchResult) : List SearchResult :=
  sortLe (fun a b => keyLe (getRP a, a.distance) (getRP b, b.distance)) l

/-- Stage 3 of `search`: de-duplicate the concatenation, sort, truncate. -/
def fuse (kw : List SearchResult) (hits : List VecHit) (n : Nat) : List SearchResult :=
  (fusSort (dedupeGo [] (kw ++ hits.map mkVecResult))).take n

/-- `DrugFoodRAG.search`, with all state explicit.  Returns the result
(`Except.error` models an exception escaping `search`) paired with the
number of queries issued to the vector collection. -/
def searchFull (dfOpt : Option (List Row)) (vq : VQ) (q : String) (n : Nat)
    (dF : Option (List String)) (fF : Option String) (rF : Option (List String)) :
    Except Unit (List SearchResult) × Nat :=
  if n ≤ (keywordResults dfOpt q dF fF rF).length then
    (Except.ok ((kwSort (keywordResults dfOpt q dF fF rF)).take n), 0)
  else
    match vectorStage vq q (n * 2) (buildWhere dF fF rF) with
    | .ok hits =>
      (Except.ok (fuse (keywordResults dfOpt q dF fF rF) hits n),
       vectorCalls vq q (n * 2) (buildWhere dF fF rF))
    | .error e => (Except.error e, 2)

/-- `result['metadata'].get('food_name', '')` as used by
`search_by_drug_and_food` (a non-string value would raise in Python at
the subsequent `.lower()`; the metadata the engine builds is always a
string here). -/
def getFoodName (r : SearchResult) : String :=
  match r.metadata.lookup "food_name" with
  | some (.str s) => s
  | _ => ""

/-- `DrugFoodRAG.search_by_drug_and_food`: exact case-insensitive
food-name match first, then the one-directional substring match
(`food_name.lower() in result_food.lower()`), then the first result. -/
def searchByDrugAndFood (dfOpt : Option (List Row)) (vq : VQ) (drug food : String) :
    Except Unit (Option SearchResult) :=
  match (searchFull dfOpt vq (drug ++ " " ++ food) 5 (some [drug]) none none).1 with
  | .error e => .error e
  | .ok results =>
    match results.find? (fun r => lowerL (getFoodName r) == lowerL food) with
    | some r => .ok (some r)
    | none =>
      match results.find? (fun r => isSubstr (lowerL food) (lowerL (getFoodName r))) with
      | some r => .ok (some r)
      | none => .ok results.head?

/-- Projection used to state properties of a search outcome: the returned
list, or `[]` when the call raised. -/
def okResults (e : Except Unit (List SearchResult)) : List SearchResult :=
  match e with
  | .ok l => l
  | .error _ => []

instance {ε α : Type} [DecidableEq ε] [DecidableEq α] : DecidableEq (Except ε α) := fun a b =>
  match a, b with
  | .ok x, .ok y =>
      if h : x = y then isTrue (by rw [h])
      else isFalse (by intro he; injection he; contradiction)
  | .error x, .error y =>
      if h : x = y then isTrue (by rw [h])
      else isFalse (by intro he; injection he; contradiction)
  | .ok _, .error _ => isFalse (by intro he; exact Except.noConfusion he)
  | .error _, .ok _ => isFalse (by intro he; exact Except.noConfusion he)

/-- A row with the given drug name, food name and risk level; the other
fields are empty strings. -/
def mkRow (d f rl : String) : Row :=
  { drug_name := d, drug_ingredient := "", drug_category := "", food_name := f,
    food_category := "", risk_level := rl, interaction_mechanism := "",
    clinical_effect := "", recommendation := "", alternative_food := "", source := "" }

/-- A vector index that answers every query with no hits. -/
def vqEmpty : VQ := fun _ _ _ => .ok []

/-- A vector index on which every query raises. -/
def vqFail : VQ := fun _ _ _ => .error ()

/-- A vector oracle returning a high-risk far hit after a low-risk near
hit, to exercise the C2 ranking invariant on the fusion path. -/
def vqC2 : VQ := fun _ _ _ => .ok
  [{ document := "b",
     metadata := [("drug_name", .str "d2"), ("food_name", .str "f2"),
                  ("risk_priority", .int 4)],
     distance := 1/10 },
   { document := "a",
     metadata := [("drug_name", .str "d1"), ("food_name", .str "f1"),
                  ("risk_priority", .int 1)],
     distance := 9/10 }]

/-- Store for the C5 counterexample: five rows for drug `d` whose food
names are scored only through the drug token, in this dataframe order. -/
def c5Rows : List Row :=
  [mkRow "d" "xx" "safe", mkRow "d" "ab" "safe", mkRow "d" "f3" "safe",
   mkRow "d" "f4" "safe", mkRow "d" "f5" "safe"]

example : scoreRow (tokensOf "d") (mkRow "d" "f" "danger") = 10 := rfl
example : (keywordResults (some [mkRow "d" "f" "danger"]) "d" none none none).length = 1 := rfl
example :
    (searchFull (some [mkRow "d" "f" "danger", mkRow "d" "f" "danger"]) vqEmpty "d" 2
      none none none).2 = 0 := rfl
example :
    (okResults (searchFull (some [mkRow "d" "f" "danger", mkRow "d" "f" "danger"]) vqEmpty "d" 2
      none none none).1).map getFoodName = ["f", "f"] := by with_unfolding_all decide
example :
    (searchFull (some [mkRow "d" "f" "danger"]) vqFail "d" 2 none none none).1 =
      Except.error () := rfl
example : riskGet "danger" = { emoji := "🔴", label := "위험", color := "#dc3545", priority := 1 } := rfl
example : (riskGet "unknown").priority = 3 := rfl
example : isSubstr (lowerL "MonG") (lowerL "Amongus") = true := rfl
example : isSubstr "abc".toList "ab".toList = false := rfl
example : wsTokens "  ab  cd ".toList = ["ab".toList, "cd".toList] := rfl
example : wsTokens "   ".toList = [] := rfl
example : sortLe (fun a b => decide (a ≤ b)) [3, 1, 2] = [1, 2, 3] := rfl

theorem mem_insertLe {le : α → α → Bool} {a b : α} {l : List α} :
    b ∈ insertLe le a l ↔ b = a ∨ b ∈ l := by
  induction l with
  | nil => simp [insertLe]
  | cons c t ih =>
    simp only [insertLe]
    split
    · simp [List.mem_cons]
    · simp only [List.mem_cons, ih]
      tauto

theorem insertLe_perm (le : α → α → Bool) (a : α) (l : List α) :
    List.Perm (insertLe le a l) (a :: l) := by
  induction l with
  | nil => exact List.Perm.refl _
  | cons c t ih =>
    simp only [insertLe]
    split
    · exact List.Perm.refl _
    · exact (ih.cons c).trans (List.Perm.swap a c t)

theorem sortLe_perm (le : α → α → Bool) (l : List α) : List.Perm (sortLe le l) l := by
  induction l with
  | nil => exact List.Perm.refl _
  | cons x xs ih => exact (insertLe_perm le x (sortLe le xs)).trans (ih.cons x)

theorem insertLe_pairwise {le : α → α → Bool}
    (total : ∀ a b, le a b = true ∨ le b a = true)
    (htrans : ∀ a b c, le a b = true → le b c = true → le a c = true)
    {l : List α} (hl : l.Pairwise (fun x y => le x y = true)) (a : α) :
    (insertLe le a l).Pairwise (fun x y => le x y = true) := by
  induction l with
  | nil => simp [insertLe]
  | cons b t ih =>
    rcases List.pairwise_cons.mp hl with ⟨hb, ht⟩
    simp only [insertLe]
    split
    case isTrue hab =>
      refine List.Pairwise.cons ?_ hl
      intro x hx
      rcases List.mem_cons.mp hx with rfl | hx
      · exact hab
      · exact htrans a b x hab (hb x hx)
    case isFalse hab =>
      have hba : le b a = true := (total a b).resolve_left (by simpa using hab)
      refine List.Pairwise.cons ?_ (ih ht)
      intro x hx
      rcases mem_insertLe.mp hx with rfl | hx
      · exact hba
      · exact hb x hx

theorem sortLe_pairwise {le : α → α → Bool}
    (total : ∀ a b, le a b = true ∨ le b a = true)
    (htrans : ∀ a b c, le a b = true → le b c = true → le a c = true)
    (l : List α) : (sortLe le l).Pairwise (fun x y => le x y = true) := by
  induction l with
  | nil => simp [sortLe]
  | cons x xs ih => exact insertLe_pairwise total htrans ih x

theorem keyLe_total (p q : Int × ℚ) : keyLe p q = true ∨ keyLe q p = true := by
  unfold keyLe
  rcases lt_trichotomy p.1 q.1 with h | h | h
  · left; simp [h]
  · rcases le_total p.2 q.2 with h2 | h2
    · left; simp [h, h2]
    · right; simp [h, h2]
  · right; simp [h]

theorem keyLe_trans (p q r : Int × ℚ)
    (h1 : keyLe p q = true) (h2 : keyLe q r = true) : keyLe p r = true := by
  unfold keyLe at h1 h2 ⊢
  simp only [Bool.or_eq_true, Bool.and_eq_true, decide_eq_true_eq] at h1 h2 ⊢
  rcases h1 with h1 | ⟨e1, l1⟩ <;> rcases h2 with h2 | ⟨e2, l2⟩
  · exact Or.inl (h1.trans h2)
  · exact Or.inl (e2 ▸ h1)
  · exact Or.inl (e1 ▸ h2)
  · exact Or.inr ⟨e1.trans e2, l1.trans l2⟩

theorem keyLe_fst {p q : Int × ℚ} (h : keyLe p q = true) : p.1 ≤ q.1 := by
  unfold keyLe at h
  simp only [Bool.or_eq_true, Bool.and_eq_true, decide_eq_true_eq] at h
  rcases h with h | ⟨h, _⟩
  · exact le_of_lt h
  · exact le_of_eq h

theorem sortKey_pairwise (k : α → Int × ℚ) (l : List α) :
    (sortLe (fun a b => keyLe (k a) (k b)) l).Pairwise
      (fun a b => keyLe (k a) (k b) = true) :=
  sortLe_pairwise (fun a b => keyLe_total (k a) (k b))
    (fun a b c => keyLe_trans (k a) (k b) (k c)) l

theorem sortKey_take_pairwise_fst (k : α → Int × ℚ) (l : List α) (n : Nat) :
    ((sortLe (fun a b => keyLe (k a) (k b)) l).take n).Pairwise
      (fun a b => (k a).1 ≤ (k b).1) :=
  List.Pairwise.sublist (List.take_sublist n _)
    ((sortKey_pairwise k l).imp (fun h => keyLe_fst h))

theorem pairwise_le_index {α : Type} {l : List α} {f : α → Int}
    (h : l.Pairwise (fun a b => f a ≤ f b)) (i j : Nat)
    (hi : i < l.length) (hj : j < l.length)
    (hlt : f (l.get ⟨i, hi⟩) < f (l.get ⟨j, hj⟩)) : i < j := by
  by_contra hij
  push_neg at hij
  rcases Nat.lt_or_ge j i with hj2 | hj3
  · have := (List.pairwise_iff_getElem.mp h) j i hj hi hj2
    simp only [List.get_eq_getElem] at hlt
    exact absurd (lt_of_lt_of_le hlt this) (lt_irrefl _)
  · have : i = j := Nat.le_antisymm hj3 hij
    subst this
    exact absurd hlt (lt_irrefl _)

theorem mem_dedupeGo {seen : List (Option MetaValue × Option MetaValue)}
    {l : List SearchResult} {r : SearchResult} (h : r ∈ dedupeGo seen l) : r ∈ l := by
  induction l generalizing seen with
  | nil => simp [dedupeGo] at h
  | cons a t ih =>
    simp only [dedupeGo] at h
    by_cases hmem : pairKeyOf a ∈ seen
    · rw [if_pos hmem] at h
      exact List.mem_cons_of_mem a (ih h)
    · rw [if_neg hmem] at h
      rcases List.mem_cons.mp h with rfl | h2
      · exact List.mem_cons_self _ _
      · exact List.mem_cons_of_mem _ (ih h2)

theorem dedupeGo_spec (seen : List (Option MetaValue × Option MetaValue))
    (l : List SearchResult) :
    ((dedupeGo seen l).map pairKeyOf).Nodup ∧
      ∀ k ∈ (dedupeGo seen l).map pairKeyOf, k ∉ seen := by
  induction l generalizing seen with
  | nil => simp [dedupeGo]
  | cons a t ih =>
    simp only [dedupeGo]
    by_cases hmem : pairKeyOf a ∈ seen
    · rw [if_pos hmem]
      exact ih seen
    · rw [if_neg hmem]
      obtain ⟨hnd, hsub⟩ := ih (pairKeyOf a :: seen)
      refine ⟨?_, ?_⟩
      · simp only [List.map_cons, List.nodup_cons]
        exact ⟨fun hm => hsub _ hm (List.mem_cons_self _ _), hnd⟩
      · intro k hk
        simp only [List.map_cons, List.mem_cons] at hk
        rcases hk with rfl | hk
        · exact hmem
        · exact fun hks => hsub k hk (List.mem_cons_of_mem _ hks)

theorem foldl_score (toks : List (List Char)) (d f : List Char) (acc : Nat) :
    toks.foldl
        (fun a t => a + (if isSubstr t d then 10 else 0) + (if isSubstr t f then 10 else 0))
        acc
      = acc + 10 * toks.countP (fun t => isSubstr t d)
            + 10 * toks.countP (fun t => isSubstr t f) := by
  induction toks generalizing acc with
  | nil => simp
  | cons t ts ih =>
    simp only [List.foldl_cons, List.countP_cons, ih]
    by_cases h1 : isSubstr t d <;> by_cases h2 : isSubstr t f <;> simp [h1, h2] <;> ring

theorem scoreRow_eq (toks : List (List Char)) (row : Row) :
    scoreRow toks row
      = 10 * toks.countP (fun t => isSubstr t (lowerL row.drug_name))
        + 10 * toks.countP (fun t => isSubstr t (lowerL row.food_name)) := by
  simpa [scoreRow] using foldl_score toks (lowerL row.drug_name) (lowerL row.food_name) 0

theorem ten_le_scoreRow {toks : List (List Char)} {row : Row}
    (h : 0 < scoreRow toks row) : 10 ≤ scoreRow toks row := by
  rw [scoreRow_eq] at h ⊢
  omega

theorem drugFilterStep_sublist (dF : Option (List String)) (rows : List Row) :
    List.Sublist (drugFilterStep dF rows) rows := by
  unfold drugFilterStep
  cases dF with
  | none => exact List.Sublist.refl _
  | some l =>
    by_cases he : l = []
    · simp [he]
    · simp only [if_neg he]
      exact List.filter_sublist _

theorem foodFilterStep_sublist (fF : Option String) (rows : List Row) :
    List.Sublist (foodFilterStep fF rows) rows := by
  unfold foodFilterStep
  cases fF with
  | none => exact List.Sublist.refl _
  | some f =>
    by_cases he : f = ""
    · simp [he]
    · simp only [if_neg he]
      exact List.filter_sublist _

theorem riskFilterStep_sublist (rF : Option (List String)) (rows : List Row) :
    List.Sublist (riskFilterStep rF rows) rows := by
  unfold riskFilterStep
  cases rF with
  | none => exact List.Sublist.refl _
  | some l =>
    by_cases he : l = []
    · simp [he]
    · simp only [if_neg he]
      exact List.filter_sublist _

theorem applyFilters_sublist (rows : List Row) (dF : Option (List String))
    (fF : Option String) (rF : Option (List String)) :
    List.Sublist (applyFilters rows dF fF rF) rows :=
  ((riskFilterStep_sublist rF _).trans (foodFilterStep_sublist fF _)).trans
    (drugFilterStep_sublist dF rows)

theorem searchFull_cases (dfOpt : Option (List Row)) (vq : VQ) (q : String) (n : Nat)
    (dF : Option (List String)) (fF : Option String) (rF : Option (List String)) :
    (searchFull dfOpt vq q n dF fF rF).1
        = Except.ok ((kwSort (keywordResults dfOpt q dF fF rF)).take n)
      ∨ (∃ hits, vectorStage vq q (n * 2) (buildWhere dF fF rF) = .ok hits ∧
          (searchFull dfOpt vq q n dF fF rF).1
            = Except.ok (fuse (keywordResults dfOpt q dF fF rF) hits n))
      ∨ (searchFull dfOpt vq q n dF fF rF).1 = Except.error () := by
  by_cases hc : n ≤ (keywordResults dfOpt q dF fF rF).length
  · left
    unfold searchFull
    simp [hc]
  · cases hv : vectorStage vq q (n * 2) (buildWhere dF fF rF) with
    | ok hits =>
      right; left
      refine ⟨hits, rfl, ?_⟩
      unfold searchFull
      simp [hc, hv]
    | error e =>
      right; right
      unfold searchFull
      simp [hc, hv]

theorem kwSort_take_pairwise (l : List SearchResult) (n : Nat) :
    ((kwSort l).take n).Pairwise (fun a b => getRP a ≤ getRP b) :=
  sortKey_take_pairwise_fst (fun r => (getRP r, -r.relevance_score)) l n

theorem fuse_pairwise (kw : List SearchResult) (hits : List VecHit) (n : Nat) :
    (fuse kw hits n).Pairwise (fun a b => getRP a ≤ getRP b) :=
  sortKey_take_pairwise_fst (fun r => (getRP r, r.distance))
    (dedupeGo [] (kw ++ hits.map mkVecResult)) n

theorem searchFull_pairwise_rp (dfOpt : Option (List Row)) (vq : VQ) (q : String) (n : Nat)
    (dF : Option (List String)) (fF : Option String) (rF : Option (List String)) :
    (okResults (searchFull dfOpt vq q n dF fF rF).1).Pairwise
      (fun a b => getRP a ≤ getRP b) := by
  rcases searchFull_cases dfOpt vq q n dF fF rF with h | ⟨hits, _, h⟩ | h <;>
    rw [h] <;> simp only [okResults]
  · exact kwSort_take_pairwise _ n
  · exact fuse_pairwise _ hits n
  · exact List.Pairwise.nil

/-- C1: for every query, `n_results`, store state and filters, the
keyword stage scores each filter-surviving row with 10 per lower-cased
whitespace token that is a substring of the lower-cased drug name and 10
per token that is a substring of the lower-cased food name, discards
score-0 rows, assigns synthetic distance `1 - score/20`, and whenever
the number of keyword hits is at least `n_results` the search returns
the top `n_results` sorted by (risk_priority ascending, relevance_score
descending) with zero queries issued to the vector index (the outcome is
the same for every vector oracle `vq`). -/
theorem keyword_stage_short_circuit
    (dfOpt : Option (List Row)) (vq : VQ) (q : String) (n : Nat)
    (dF : Option (List String)) (fF : Option String) (rF : Option (List String))
    (h : n ≤ (keywordResults dfOpt q dF fF rF).length) :
    searchFull dfOpt vq q n dF fF rF
        = (Except.ok ((kwSort (keywordResults dfOpt q dF fF rF)).take n), 0)
      ∧ (∀ rows, dfOpt = some rows →
          keywordResults dfOpt q dF fF rF
            = ((applyFilters rows dF fF rF).filter
                  (fun row => 0 < scoreRow (tokensOf q) row)).map
                (fun row => mkKeywordResult row (scoreRow (tokensOf q) row)))
      ∧ (∀ row : Row, scoreRow (tokensOf q) row
            = 10 * (tokensOf q).countP (fun t => isSubstr t (lowerL row.drug_name))
              + 10 * (tokensOf q).countP (fun t => isSubstr t (lowerL row.food_name)))
      ∧ (∀ (row : Row) (score : Nat),
            (mkKeywordResult row score).distance = 1 - (score : ℚ) / 20
          ∧ (mkKeywordResult row score).relevance_score = (score : ℚ) / 20)
      ∧ ((kwSort (keywordResults dfOpt q dF fF rF)).take n).Pairwise
          (fun a b => getRP a < getRP b
            ∨ (getRP a = getRP b ∧ b.relevance_score ≤ a.relevance_score)) := by
  refine ⟨?_, ?_, ?_, ?_, ?_⟩
  · unfold searchFull
    simp [h]
  · intro rows hr
    subst hr
    rfl
  · intro row
    exact scoreRow_eq _ row
  · intro row score
    exact ⟨rfl, rfl⟩
  · have hp := List.Pairwise.sublist
      (List.take_sublist n _)
      (sortKey_pairwise (fun r => (getRP r, -r.relevance_score))
        (keywordResults dfOpt q dF fF rF))
    refine hp.imp ?_
    intro a b hab
    unfold keyLe at hab
    simp only [Bool.or_eq_true, Bool.and_eq_true, decide_eq_true_eq] at hab
    rcases hab with h1 | ⟨h1, h2⟩
    · exact Or.inl h1
    · exact Or.inr ⟨h1, by linarith⟩

/-- Witness for C1 at a one-row store with a failing vector oracle: one
keyword hit suffices for `n_results = 1` and the oracle is never
consulted. -/
theorem keyword_stage_short_circuit_witness :
    (1 ≤ (keywordResults (some [mkRow "d" "f" "danger"]) "d" none none none).length)
    ∧ searchFull (some [mkRow "d" "f" "danger"]) vqFail "d" 1 none none none
        = (Except.ok
            ((kwSort (keywordResults (some [mkRow "d" "f" "danger"]) "d" none none none)).take 1),
           0) :=
  ⟨by with_unfolding_all decide,
   (keyword_stage_short_circuit (some [mkRow "d" "f" "danger"]) vqFail "d" 1 none none none
     (by with_unfolding_all decide)).1⟩

/-- C2: in any list returned by `search`, a result whose `risk_priority`
is strictly smaller appears strictly earlier, independently of the
distances. -/
theorem search_risk_priority_dominates
    (dfOpt : Option (List Row)) (vq : VQ) (q : String) (n : Nat)
    (dF : Option (List String)) (fF : Option String) (rF : Option (List String))
    (i j : Nat)
    (hi : i < (okResults (searchFull dfOpt vq q n dF fF rF).1).length)
    (hj : j < (okResults (searchFull dfOpt vq q n dF fF rF).1).length)
    (hlt : getRP ((okResults (searchFull dfOpt vq q n dF fF rF).1).get ⟨i, hi⟩)
         < getRP ((okResults (searchFull dfOpt vq q n dF fF rF).1).get ⟨j, hj⟩)) :
    i < j :=
  pairwise_le_index (searchFull_pairwise_rp dfOpt vq q n dF fF rF) i j hi hj hlt

/-- Witness for C2: a `risk_priority = 1` result at distance `9/10` ranks
before a `risk_priority = 4` result at distance `1/10`. -/
theorem search_risk_priority_dominates_witness :
    getRP ((okResults (searchFull none vqC2 "q" 2 none none none).1).get
        ⟨0, by with_unfolding_all decide⟩)
      < getRP ((okResults (searchFull none vqC2 "q" 2 none none none).1).get
        ⟨1, by with_unfolding_all decide⟩)
    ∧ (0 : Nat) < 1 :=
  ⟨by with_unfolding_all decide,
   search_risk_priority_dominates none vqC2 "q" 2 none none none 0 1
     (by with_unfolding_all decide) (by with_unfolding_all decide)
     (by with_unfolding_all decide)⟩

/-- The pair key of a keyword result is the row's (drug_name, food_name)
wrapped as metadata values. -/
theorem pairKeyOf_mkKeywordResult (row : Row) (s : Nat) :
    pairKeyOf (mkKeywordResult row s)
      = (some (MetaValue.str row.drug_name), some (MetaValue.str row.food_name)) := rfl

theorem keywordResults_pairs_nodup {rows : List Row}
    (hnd : (rows.map (fun r => (r.drug_name, r.food_name))).Nodup)
    (q : String) (dF : Option (List String)) (fF : Option String)
    (rF : Option (List String)) :
    ((keywordResults (some rows) q dF fF rF).map pairKeyOf).Nodup := by
  unfold keywordResults
  rw [List.map_map]
  have he : (pairKeyOf ∘ fun row => mkKeywordResult row (scoreRow (tokensOf q) row))
      = (fun (p : String × String) => (some (MetaValue.str p.1), some (MetaValue.str p.2)))
        ∘ (fun r : Row => (r.drug_name, r.food_name)) := by
    funext row
    rfl
  rw [he, ← List.map_map]
  apply List.Nodup.map
  · intro a b hab
    simp only [Prod.mk.injEq, Option.some.injEq, MetaValue.str.injEq] at hab
    exact Prod.ext hab.1 hab.2
  · refine List.Nodup.sublist (List.Sublist.map _ ?_) hnd
    exact (List.filter_sublist _).trans (applyFilters_sublist rows dF fF rF)

theorem take_sort_pairs_nodup {l : List SearchResult}
    (h : (l.map pairKeyOf).Nodup) (le : SearchResult → SearchResult → Bool) (n : Nat) :
    (((sortLe le l).take n).map pairKeyOf).Nodup := by
  have hp : List.Perm ((sortLe le l).map pairKeyOf) (l.map pairKeyOf) :=
    (sortLe_perm le l).map _
  rw [List.map_take]
  exact List.Nodup.sublist (List.take_sublist n _) (hp.nodup_iff.mpr h)

/-- C3 (amended): whenever no two rows of the store share a
`(drug_name, food_name)` pair, the list returned by `search` contains no
two results with the same pair; the fusion path guarantees this for any
store, but the keyword short-circuit path returns the raw keyword hits
without de-duplication, so a store with duplicate pairs makes the claim
fail there (see the counterexample). -/
theorem search_results_pair_distinct
    (dfOpt : Option (List Row)) (vq : VQ) (q : String) (n : Nat)
    (dF : Option (List String)) (fF : Option String) (rF : Option (List String))
    (hnd : ((dfOpt.getD []).map (fun r => (r.drug_name, r.food_name))).Nodup) :
    ((okResults (searchFull dfOpt vq q n dF fF rF).1).map pairKeyOf).Nodup := by
  rcases searchFull_cases dfOpt vq q n dF fF rF with h | ⟨hits, _, h⟩ | h <;>
    rw [h] <;> simp only [okResults]
  · cases dfOpt with
    | none =>
      have : keywordResults none q dF fF rF = [] := rfl
      rw [this]
      exact take_sort_pairs_nodup (by simp) _ n
    | some rows =>
      exact take_sort_pairs_nodup (keywordResults_pairs_nodup (by simpa using hnd) q dF fF rF) _ n
  · exact take_sort_pairs_nodup (dedupeGo_spec [] _).1 _ n
  · simp

/-- Witness for C3 (amended) on a duplicate-free two-row store. -/
theorem search_results_pair_distinct_witness :
    (((some [mkRow "d" "f1" "danger", mkRow "d" "f2" "safe"]
        : Option (List Row)).getD []).map (fun r => (r.drug_name, r.food_name))).Nodup
    ∧ ((okResults (searchFull (some [mkRow "d" "f1" "danger", mkRow "d" "f2" "safe"])
          vqEmpty "d" 2 none none none).1).map pairKeyOf).Nodup :=
  ⟨by with_unfolding_all decide,
   search_results_pair_distinct (some [mkRow "d" "f1" "danger", mkRow "d" "f2" "safe"])
     vqEmpty "d" 2 none none none (by with_unfolding_all decide)⟩

/-- Counterexample for C3 as stated: with two store rows carrying the
same `(drug_name, food_name)` pair, the keyword short-circuit path
returns both, so the returned list has a duplicate pair. -/
theorem search_duplicate_pair_cex :
    ¬ ((okResults (searchFull (some [mkRow "d" "f" "danger", mkRow "d" "f" "danger"])
          vqEmpty "d" 2 none none none).1).map pairKeyOf).Nodup := by
  with_unfolding_all decide

/-- C4 (amended): when the filtered vector query raises, `search` retries
exactly once with the filter removed entirely; if the unfiltered retry
succeeds, fusion proceeds with its hits (two queries issued in total),
but if the retry also raises the exception propagates out of `search`
instead of degrading to keyword-only results. -/
theorem vector_error_retry_unfiltered
    (dfOpt : Option (List Row)) (vq : VQ) (q : String) (n : Nat)
    (dF : Option (List String)) (fF : Option String) (rF : Option (List String))
    (hk : (keywordResults dfOpt q dF fF rF).length < n)
    (h1 : vq q (n * 2) (buildWhere dF fF rF) = .error ()) :
    (∀ hits, vq q (n * 2) none = .ok hits →
        searchFull dfOpt vq q n dF fF rF
          = (Except.ok (fuse (keywordResults dfOpt q dF fF rF) hits n), 2))
    ∧ (vq q (n * 2) none = .error () →
        searchFull dfOpt vq q n dF fF rF = (Except.error (), 2)) := by
  have hc : ¬ n ≤ (keywordResults dfOpt q dF fF rF).length := by omega
  constructor
  · intro hits h2
    unfold searchFull
    simp [hc, vectorStage, vectorCalls, h1, h2]
  · intro h2
    unfold searchFull
    simp [hc, vectorStage, vectorCalls, h1, h2]

/-- Witness for C4 (amended): one keyword hit, `n_results = 2`, and an
always-failing oracle make `search` propagate the error after two
queries. -/
theorem vector_error_retry_unfiltered_witness :
    ((keywordResults (some [mkRow "d" "f" "danger"]) "d" none none none).length < 2)
    ∧ searchFull (some [mkRow "d" "f" "danger"]) vqFail "d" 2 none none none
        = (Except.error (), 2) :=
  ⟨by with_unfolding_all decide,
   (vector_error_retry_unfiltered (some [mkRow "d" "f" "danger"]) vqFail "d" 2 none none none
     (by with_unfolding_all decide) rfl).2 rfl⟩

/-- Counterexample for C4 as stated: when the unfiltered retry also
raises, the exception escapes `search` (the vector stage does not
contribute zero candidates, and no keyword-only result list is
returned). -/
theorem vector_error_escapes_cex :
    (searchFull (some [mkRow "d" "f" "danger"]) vqFail "d" 2 none none none).1
      = Except.error () := by
  with_unfolding_all decide

/-- C5 (amended): `search_by_drug_and_food` returns the first underlying
result whose food name equals the queried food case-insensitively;
failing that, the first whose lower-cased food name contains the
lower-cased queried food as a substring (one direction only: queried
food inside stored food name); failing that, the first result; and none
when there are no results. -/
theorem search_by_drug_and_food_fallbacks
    (dfOpt : Option (List Row)) (vq : VQ) (drug food : String)
    (results : List SearchResult)
    (h : (searchFull dfOpt vq (drug ++ " " ++ food) 5 (some [drug]) none none).1
          = Except.ok results) :
    searchByDrugAndFood dfOpt vq drug food = Except.ok
      ((results.find? (fun r => lowerL (getFoodName r) == lowerL food)).orElse
        (fun _ =>
          (results.find? (fun r => isSubstr (lowerL food) (lowerL (getFoodName r)))).orElse
            (fun _ => results.head?))) := by
  unfold searchByDrugAndFood
  rw [h]
  cases hf : results.find? (fun r => lowerL (getFoodName r) == lowerL food) with
  | some r => simp [hf, Option.orElse]
  | none =>
    cases hg : results.find? (fun r => isSubstr (lowerL food) (lowerL (getFoodName r))) with
    | some r => simp [hf, hg, Option.orElse]
    | none => simp [hf, hg, Option.orElse]

/-- Witness for C5 (amended) at an unavailable store: the underlying
search returns no results and the lookup returns none. -/
theorem search_by_drug_and_food_fallbacks_witness :
    ((searchFull none vqEmpty ("d" ++ " " ++ "f") 5 (some ["d"]) none none).1
        = Except.ok ([] : List SearchResult))
    ∧ searchByDrugAndFood none vqEmpty "d" "f" = Except.ok
        ((([] : List SearchResult).find? (fun r => lowerL (getFoodName r) == lowerL "f")).orElse
          (fun _ =>
            (([] : List SearchResult).find?
                (fun r => isSubstr (lowerL "f") (lowerL (getFoodName r)))).orElse
              (fun _ => ([] : List SearchResult).head?))) :=
  ⟨by with_unfolding_all decide,
   search_by_drug_and_food_fallbacks none vqEmpty "d" "f" [] (by with_unfolding_all decide)⟩

/-- Counterexample for C5 as stated: querying food "abc" over results
whose foods are (in order) "xx", "ab", ...: there is no exact match, the
first either-direction substring match is the "ab" result, yet the
function returns the "xx" result through the final first-result
fallback — the either-direction rule is not what the code implements. -/
theorem search_by_drug_and_food_direction_cex :
    ((searchByDrugAndFood (some c5Rows) vqEmpty "d" "abc").map
        (fun o => o.map getFoodName)) = Except.ok (some "xx")
    ∧ (match (searchFull (some c5Rows) vqEmpty ("d" ++ " " ++ "abc") 5
            (some ["d"]) none none).1 with
        | Except.ok results =>
            (results.find? (fun r =>
                isSubstr (lowerL "abc") (lowerL (getFoodName r))
                  || isSubstr (lowerL (getFoodName r)) (lowerL "abc"))).map getFoodName
        | Except.error _ => none) = some "ab"
    ∧ (match (searchFull (some c5Rows) vqEmpty ("d" ++ " " ++ "abc") 5
            (some ["d"]) none none).1 with
        | Except.ok results =>
            results.find? (fun r => lowerL (getFoodName r) == lowerL "abc")
        | Except.error _ => none) = none := by
  refine ⟨?_, ?_, ?_⟩ <;> with_unfolding_all decide

/-- C6 (amended): with an unavailable store (the interactions dataframe
is None), `build_index` returns success=false with the no-data message,
leaves the index count unchanged and issues no index mutation, and
`get_stats` returns total_interactions equal to the index count — in
particular 0 for an empty index — without raising.  (An empty-but-loaded
store is not detected this way: see the counterexample.) -/
theorem build_unavailable_store (c : Nat) (force : Bool) :
    buildIndex none c force
        = ({ success := false, message := noDataMsg, count := none }, c, [])
    ∧ getStats none c
        = { total_interactions := c, drugs := 0, foods := 0, by_risk_level := [] } :=
  ⟨rfl, rfl⟩

/-- Counterexample for C6 as stated: an empty-but-loaded store (a
dataframe with zero rows) makes `build_index` return success=true and
issue an `add` of zero documents, rather than failing with no
mutation. -/
theorem build_empty_store_cex :
    (buildIndex (some []) 0 false).1.success = true
    ∧ (buildIndex (some []) 0 false).2.2 = [IndexOp.add 0] := by
  exact ⟨rfl, rfl⟩

/-- C7 (amended): provided the store is available, with an index already
holding `c > 0` documents, `build(force_rebuild=false)` twice in
succession leaves the count at `c`, issues no index operation, and both
calls — in particular the second — return success with the reuse message
reporting the existing count.  (With an unavailable store the claim
fails: see the counterexample.) -/
theorem build_idempotent_reuse (rows : List Row) (c : Nat) (hc : 0 < c) :
    buildIndex (some rows) c false
        = ({ success := true, message := reuseMsg c, count := some c }, c, [])
    ∧ buildIndex (some rows) ((buildIndex (some rows) c false).2.1) false
        = ({ success := true, message := reuseMsg c, count := some c }, c, []) := by
  have h1 : buildIndex (some rows) c false
      = ({ success := true, message := reuseMsg c, count := some c }, c, []) := by
    simp [buildIndex, hc]
  refine ⟨h1, ?_⟩
  rw [h1]
  exact h1

/-- Witness for C7 (amended) at an available empty row list and one
existing document. -/
theorem build_idempotent_reuse_witness :
    (0 < 1)
    ∧ buildIndex (some ([] : List Row)) 1 false
        = ({ success := true, message := reuseMsg 1, count := some 1 }, 1, []) :=
  ⟨by decide, (build_idempotent_reuse [] 1 (by decide)).1⟩

/-- Counterexample for C7 as stated: with an unavailable store and index
count 3, the second call returns success=false with the no-data message
instead of a success/reuse result (the count does stay unchanged). -/
theorem build_reuse_unavailable_cex :
    (buildIndex none ((buildIndex none 3 false).2.1) false).1.success = false
    ∧ (buildIndex none ((buildIndex none 3 false).2.1) false).1.message ≠ reuseMsg 3
    ∧ (buildIndex none 3 false).2.1 = 3 := by
  refine ⟨rfl, ?_, rfl⟩
  decide

/-- C8 (amended): the metadata of every record holds exactly the keys
drug_name, drug_ingredient, drug_category, food_name, food_category,
risk_level, risk_priority, recommendation, alternative_food, source —
nine of the record fields as strings (interaction_mechanism and
clinical_effect are absent, see the counterexample) plus the integer
risk_priority looked up from risk_level, which equals the caution
priority 3 whenever risk_level is not one of the four recognized
levels. -/
theorem create_metadata_fields (row : Row) :
    (createMetadata row).map Prod.fst
        = ["drug_name", "drug_ingredient", "drug_category", "food_name", "food_category",
           "risk_level", "risk_priority", "recommendation", "alternative_food", "source"]
    ∧ (createMetadata row).lookup "drug_name" = some (.str row.drug_name)
    ∧ (createMetadata row).lookup "drug_ingredient" = some (.str row.drug_ingredient)
    ∧ (createMetadata row).lookup "drug_category" = some (.str row.drug_category)
    ∧ (createMetadata row).lookup "food_name" = some (.str row.food_name)
    ∧ (createMetadata row).lookup "food_category" = some (.str row.food_category)
    ∧ (createMetadata row).lookup "risk_level" = some (.str row.risk_level)
    ∧ (createMetadata row).lookup "recommendation" = some (.str row.recommendation)
    ∧ (createMetadata row).lookup "alternative_food" = some (.str row.alternative_food)
    ∧ (createMetadata row).lookup "source" = some (.str row.source)
    ∧ (createMetadata row).lookup "risk_priority"
        = some (.int (riskGet row.risk_level).priority)
    ∧ (row.risk_level ∉ (["danger", "warning", "caution", "safe"] : List String) →
        (riskGet row.risk_level).priority = 3) := by
  refine ⟨rfl, rfl, rfl, rfl, rfl, rfl, rfl, rfl, rfl, rfl, rfl, ?_⟩
  intro h
  simp only [List.mem_cons, List.not_mem_nil, or_false, not_or] at h
  obtain ⟨h1, h2, h3, h4⟩ := h
  unfold riskGet riskLevelsGet
  rw [if_neg h1, if_neg h2, if_neg h3, if_neg h4]
  rfl

/-- Witness for C8 (amended): an unrecognized risk level defaults to
priority 3. -/
theorem create_metadata_fields_witness :
    ("weird" ∉ (["danger", "warning", "caution", "safe"] : List String))
    ∧ (riskGet "weird").priority = 3 :=
  ⟨by decide,
   (create_metadata_fields (mkRow "d" "f" "weird")).2.2.2.2.2.2.2.2.2.2.2 (by decide)⟩

/-- Counterexample for C8 as stated: the produced metadata omits the
record fields interaction_mechanism and clinical_effect, so it does not
contain all the record fields. -/
theorem create_metadata_missing_fields_cex :
    (createMetadata (mkRow "d" "f" "danger")).lookup "interaction_mechanism" = none
    ∧ (createMetadata (mkRow "d" "f" "danger")).lookup "clinical_effect" = none :=
  ⟨rfl, rfl⟩

theorem keyword_distance_le_half {dfOpt : Option (List Row)} {q : String}
    {dF : Option (List String)} {fF : Option String} {rF : Option (List String)}
    {r : SearchResult} (hr : r ∈ keywordResults dfOpt q dF fF rF) :
    r.distance ≤ 1/2 ∧ 1/2 ≤ r.relevance_score := by
  cases dfOpt with
  | none => simp [keywordResults] at hr
  | some rows =>
    unfold keywordResults at hr
    rw [List.mem_map] at hr
    obtain ⟨row, hrow, rfl⟩ := hr
    rw [List.mem_filter] at hrow
    have hs : 0 < scoreRow (tokensOf q) row := by
      have h2 := hrow.2
      simpa using h2
    have h10 : 10 ≤ scoreRow (tokensOf q) row := ten_le_scoreRow hs
    have h10q : (10 : ℚ) ≤ (scoreRow (tokensOf q) row : ℚ) := by exact_mod_cast h10
    constructor
    · show 1 - (scoreRow (tokensOf q) row : ℚ) / 20 ≤ 1/2
      linarith
    · show 1/2 ≤ (scoreRow (tokensOf q) row : ℚ) / 20
      linarith

/-- C9: every keyword-stage result has synthetic distance at most 1/2
and relevance score at least 1/2; vector-stage results carry the
index-reported distance unchanged; hence in any returned list a result
with distance greater than 1/2 necessarily arose from a vector hit. -/
theorem keyword_distance_bound
    (dfOpt : Option (List Row)) (vq : VQ) (q : String) (n : Nat)
    (dF : Option (List String)) (fF : Option String) (rF : Option (List String)) :
    (∀ r ∈ keywordResults dfOpt q dF fF rF,
        r.distance ≤ 1/2 ∧ 1/2 ≤ r.relevance_score)
    ∧ (∀ h : VecHit, (mkVecResult h).distance = h.distance)
    ∧ (∀ res, (searchFull dfOpt vq q n dF fF rF).1 = Except.ok res →
        ∀ r ∈ res, 1/2 < r.distance →
          ∃ hits, vectorStage vq q (n * 2) (buildWhere dF fF rF) = .ok hits
            ∧ r ∈ hits.map mkVecResult) := by
  refine ⟨fun r hr => keyword_distance_le_half hr, fun h => rfl, ?_⟩
  intro res hres r hr hd
  rcases searchFull_cases dfOpt vq q n dF fF rF with h | ⟨hits, hv, h⟩ | h
  · rw [h] at hres
    injection hres with hres
    subst hres
    have h1 : r ∈ kwSort (keywordResults dfOpt q dF fF rF) :=
      (List.take_sublist n _).subset hr
    have hmem : r ∈ keywordResults dfOpt q dF fF rF :=
      ((sortLe_perm _ _).mem_iff).mp h1
    have := (keyword_distance_le_half hmem).1
    linarith
  · rw [h] at hres
    injection hres with hres
    subst hres
    refine ⟨hits, hv, ?_⟩
    have h1 : r ∈ fusSort
        (dedupeGo [] (keywordResults dfOpt q dF fF rF ++ hits.map mkVecResult)) :=
      (List.take_sublist n _).subset hr
    have h2 : r ∈ dedupeGo []
        (keywordResults dfOpt q dF fF rF ++ hits.map mkVecResult) :=
      ((sortLe_perm _ _).mem_iff).mp h1
    rcases List.mem_append.mp (mem_dedupeGo h2) with hk | hvv
    · have := (keyword_distance_le_half hk).1
      linarith
    · exact hvv
  · rw [h] at hres
    exact absurd hres (by simp)

theorem okResults_spec {e : Except Unit (List SearchResult)}
    (h : ¬ e = Except.error ()) : e = Except.ok (okResults e) := by
  cases e with
  | ok l => rfl
  | error u => cases u; exact absurd rfl h

/-- Witness for C9: in the fusion scenario of `vqC2`, the first returned
result has distance 9/10 greater than 1/2 and indeed arises from a
vector hit. -/
theorem keyword_distance_bound_witness :
    (1/2 < ((okResults (searchFull none vqC2 "q" 2 none none none).1).get
        ⟨0, by with_unfolding_all decide⟩).distance)
    ∧ (∃ hits, vectorStage vqC2 "q" (2 * 2) (buildWhere none none none) = .ok hits
        ∧ ((okResults (searchFull none vqC2 "q" 2 none none none).1).get
            ⟨0, by with_unfolding_all decide⟩) ∈ hits.map mkVecResult) :=
  ⟨by with_unfolding_all decide,
   (keyword_distance_bound none vqC2 "q" 2 none none none).2.2
     (okResults (searchFull none vqC2 "q" 2 none none none).1)
     (okResults_spec (by with_unfolding_all decide))
     ((okResults (searchFull none vqC2 "q" 2 none none none).1).get
       ⟨0, by with_unfolding_all decide⟩)
     (List.get_mem _ _ _)
     (by with_unfolding_all decide)⟩

theorem toLower_of_ws {c : Char} (h : c.isWhitespace = true) : c.toLower = c := by
  simp only [Char.isWhitespace, Bool.or_eq_true, beq_iff_eq, decide_eq_true_eq] at h
  rcases h with ((h | h) | h) | h <;> subst h <;> decide

theorem wsTokensAux_ws {l : List Char} (h : ∀ c ∈ l, c.isWhitespace = true) :
    wsTokensAux [] l = [] := by
  induction l with
  | nil => rfl
  | cons c t ih =>
    have hc := h c (List.mem_cons_self _ _)
    simp only [wsTokensAux, hc, if_true, List.isEmpty_nil]
    exact ih (fun d hd => h d (List.mem_cons_of_mem _ hd))

theorem tokensOf_ws {q : String} (h : ∀ c ∈ q.toList, c.isWhitespace = true) :
    tokensOf q = [] := by
  unfold tokensOf wsTokens lowerL
  apply wsTokensAux_ws
  intro c hc
  rw [List.mem_map] at hc
  obtain ⟨d, hd, rfl⟩ := hc
  rw [toLower_of_ws (h d hd)]
  exact h d hd

theorem keywordResults_no_tokens {q : String} (ht : tokensOf q = [])
    (dfOpt : Option (List Row)) (dF : Option (List String)) (fF : Option String)
    (rF : Option (List String)) : keywordResults dfOpt q dF fF rF = [] := by
  cases dfOpt with
  | none => rfl
  | some rows =>
    unfold keywordResults
    rw [ht]
    simp [scoreRow]

/-- C10: for a query that is empty or consists only of whitespace,
tokenization yields no terms, the keyword stage produces zero hits for
every store and filter combination, and — for positive `n_results` —
search proceeds to the vector stage (at least one index query is issued)
and every returned result arises from a vector hit. -/
theorem whitespace_query_vector_only
    (q : String) (hw : ∀ c ∈ q.toList, c.isWhitespace = true)
    (dfOpt : Option (List Row)) (vq : VQ) (n : Nat)
    (dF : Option (List String)) (fF : Option String) (rF : Option (List String)) :
    tokensOf q = []
    ∧ keywordResults dfOpt q dF fF rF = []
    ∧ (0 < n →
        1 ≤ (searchFull dfOpt vq q n dF fF rF).2
        ∧ ∀ res, (searchFull dfOpt vq q n dF fF rF).1 = Except.ok res →
            ∃ hits, vectorStage vq q (n * 2) (buildWhere dF fF rF) = .ok hits
              ∧ res = fuse [] hits n
              ∧ ∀ r ∈ res, r ∈ hits.map mkVecResult) := by
  have ht := tokensOf_ws hw
  have hk := keywordResults_no_tokens ht dfOpt dF fF rF
  refine ⟨ht, hk, ?_⟩
  intro hn
  have hc : ¬ n ≤ (keywordResults dfOpt q dF fF rF).length := by
    rw [hk]
    simp only [List.length_nil]
    omega
  constructor
  · unfold searchFull
    rw [if_neg hc]
    cases hv : vectorStage vq q (n * 2) (buildWhere dF fF rF) with
    | ok hits =>
      show 1 ≤ vectorCalls vq q (n * 2) (buildWhere dF fF rF)
      unfold vectorCalls
      split <;> omega
    | error e =>
      show (1 : Nat) ≤ 2
      omega
  · intro res hres
    unfold searchFull at hres
    rw [if_neg hc] at hres
    cases hv : vectorStage vq q (n * 2) (buildWhere dF fF rF) with
    | ok hits =>
      rw [hv] at hres
      simp only at hres
      injection hres with hres
      refine ⟨hits, rfl, ?_, ?_⟩
      · rw [← hres, hk]
      · intro r hr
        rw [← hres] at hr
        have h1 : r ∈ fusSort
            (dedupeGo [] (keywordResults dfOpt q dF fF rF ++ hits.map mkVecResult)) :=
          (List.take_sublist n _).subset hr
        have h2 := ((sortLe_perm _ _).mem_iff).mp h1
        rcases List.mem_append.mp (mem_dedupeGo h2) with hk2 | hvv
        · rw [hk] at hk2
          simp at hk2
        · exact hvv
    | error e =>
      rw [hv] at hres
      simp at hres

/-- Witness for C10 at the one-space query, a one-row store and an
empty-answering oracle. -/
theorem whitespace_query_vector_only_witness :
    (tokensOf " " = [])
    ∧ keywordResults (some [mkRow "d" "f" "danger"]) " " none none none = []
    ∧ (1 ≤ (searchFull (some [mkRow "d" "f" "danger"]) vqEmpty " " 1 none none none).2) :=
  ⟨(whitespace_query_vector_only " " (by decide) (some [mkRow "d" "f" "danger"])
      vqEmpty 1 none none none).1,
   (whitespace_query_vector_only " " (by decide) (some [mkRow "d" "f" "danger"])
      vqEmpty 1 none none none).2.1,
   ((whitespace_query_vector_only " " (by decide) (some [mkRow "d" "f" "danger"])
      vqEmpty 1 none none none).2.2 (by decide)).1⟩
